import Mathlib

/-! Shallow embedding of src/py.py, an asset-extraction pipeline: it walks a
source tree, keeps files whose name matches a fixed suffix set, validates that
each kept path still exists, dispatches the valid ones by suffix to one of
three converters (loctable-to-strings, image copy, plist normalisation), and
aggregates the per-file failure dictionaries into a final report.

Paths are modelled as the character lists of the CPython strings, the
destination filesystem as the list of directories created and files written,
and the fallible external steps (the plutil decode, the output-file write,
the cp calls) as explicit per-file oracles, so that one converter run is a
pure function of its path and its oracle. -/

namespace Ipsw

/-- Filesystem paths, modelled as the character list of the CPython string. -/
abbrev Path := List Char

/-- Python str.replace(pat, repl), all occurrences left to right, written with
an explicit fuel argument so that it computes by structural recursion; fuel
s.length + 1 always suffices and is what replaceAll passes. -/
def replaceGo (pat repl : List Char) : Nat → List Char → List Char
  | 0, s => s
  | _ + 1, [] => if pat.isEmpty then repl else []
  | fuel + 1, c :: cs =>
    if pat.isEmpty then repl ++ c :: replaceGo pat repl fuel cs
    else if pat.isPrefixOf (c :: cs) then repl ++ replaceGo pat repl fuel (cs.drop (pat.length - 1))
    else c :: replaceGo pat repl fuel cs

/-- Python s.replace(pat, repl). -/
def replaceAll (pat repl s : List Char) : List Char := replaceGo pat repl (s.length + 1) s

/-- Python substring containment: occursIn pat s is pat in s. -/
def occursIn (pat : List Char) : List Char → Bool
  | [] => pat.isEmpty
  | c :: cs => pat.isPrefixOf (c :: cs) || occursIn pat cs

/-- posixpath.basename: the characters after the last slash. -/
def basename (p : Path) : Path := (p.reverse.takeWhile (fun c => c ≠ '/')).reverse

/-- posixpath.dirname: the characters up to and including the last slash, with
trailing slashes then stripped unless that head consists only of slashes. -/
def dirname (p : Path) : Path :=
  let head := p.take (p.length - (basename p).length)
  if head ≠ [] ∧ head.any (fun c => c ≠ '/') then (head.reverse.dropWhile (fun c => c = '/')).reverse
  else head

/-- posixpath.join on two components. -/
def joinOne (a b : Path) : Path :=
  if b.head? = some '/' then b
  else if a = [] ∨ a.getLast? = some '/' then a ++ b
  else a ++ '/' :: b

/-- posixpath.join folded over a component list. -/
def joinPath : List Path → Path
  | [] => []
  | a :: rest => rest.foldl joinOne a

/-- Drop exactly one leading slash, as the startswith branch of the source
does (src/py.py lines 63-64). -/
def stripLeadingSlash (p : Path) : Path :=
  match p with
  | '/' :: rest => rest
  | _ => p

/-- Relative-path computation shared by all three converters (src/py.py lines
62-64, 107-109 and 132-134): str.replace of the source root by the empty
string, then one leading slash stripped. -/
def relPathInDMG (root p : Path) : Path := stripLeadingSlash (replaceAll root [] p)

/-- Content of a destination file in the model. -/
inductive FileContent where
  | text : String → FileContent
  | copyOf : Path → FileContent
  | xmlOf : Path → FileContent
deriving DecidableEq

/-- Destination-filesystem effects of one task. -/
structure ConvEffects where
  dirsCreated : List Path
  filesWritten : List (Path × FileContent)
deriving DecidableEq

/-- No destination effect. -/
def emptyEffects : ConvEffects := ⟨[], []⟩

/-- Concatenation of the per-task effects, in task order. -/
def mergeEffects (l : List ConvEffects) : ConvEffects :=
  l.foldl (fun a b => ⟨a.dirsCreated ++ b.dirsCreated, a.filesWritten ++ b.filesWritten⟩) emptyEffects

/-- The error dictionaries appended to errorArrayWithFilepaths. -/
structure Failure where
  filepath : Path
  errorMessage : String
  function : String
deriving DecidableEq

/-- Outcome of the final strings-file write in convert_loctable_to_strings:
either every line is written, or an OSError interrupts after k lines. -/
inductive WriteResult where
  | allOk : WriteResult
  | errAt : Nat → String → WriteResult
deriving DecidableEq

/-- Per-file oracle for the fallible external steps: the plutil json decode,
the strings-file write, the plutil xml1 conversion, the two cp calls, and the
random name tempfile.NamedTemporaryFile hands out. -/
structure Env where
  decodeLoctable : Except String (List (String × List (String × String)))
  locWrite : WriteResult
  plutilXml : Option String
  cpPlist : Option String
  tempName : Path
  cpImage : Option String

/-- Script configuration from argv (src/py.py lines 37-43). -/
structure Config where
  parsedFolderPath : Path
  finalBaseRepoPath : Path
  skipInfoPlist : Bool

/-- finalBaseRepoImagesPath from src/py.py lines 46-47. -/
def finalBaseRepoImagesPath (cfg : Config) : Path :=
  joinOne (dirname cfg.finalBaseRepoPath) "images".data

/-- One output line of the strings file (src/py.py line 93). -/
def locLine (kv : String × String) : String := "\"" ++ kv.1 ++ "\" = \"" ++ kv.2 ++ "\";\n"

/-- The output lines for the en content, in source-declared key order. -/
def locLines (enContent : List (String × String)) : List String := enContent.map locLine

/-- outputDir of convert_loctable_to_strings (src/py.py line 85). -/
def locOutputDir (cfg : Config) (loctable_file : Path) : Path :=
  joinPath [cfg.finalBaseRepoPath, dirname (relPathInDMG cfg.parsedFolderPath loctable_file), "en.lproj".data]

/-- outputFile of convert_loctable_to_strings (src/py.py lines 88-89). -/
def locOutputFile (cfg : Config) (loctable_file : Path) : Path :=
  joinOne (locOutputDir cfg loctable_file) (replaceAll ".loctable".data ".strings".data (basename loctable_file))

/-- Body of the try block of convert_loctable_to_strings (src/py.py lines
66-95): some msg is a raised exception with its message, paired with the
destination effects performed before the return or the raise. -/
def loctableAttempt (cfg : Config) (env : Env) (loctable_file : Path) : Option String × ConvEffects :=
  match env.decodeLoctable with
  | Except.error msg => (some msg, emptyEffects)
  | Except.ok data =>
    let enContent := (data.lookup "en").getD []
    if enContent.isEmpty then (none, emptyEffects)
    else
      match env.locWrite with
      | WriteResult.allOk =>
        (none, ⟨[locOutputDir cfg loctable_file],
                [(locOutputFile cfg loctable_file, FileContent.text (String.join (locLines enContent)))]⟩)
      | WriteResult.errAt k msg =>
        (some msg, ⟨[locOutputDir cfg loctable_file],
                [(locOutputFile cfg loctable_file, FileContent.text (String.join ((locLines enContent).take k)))]⟩)

/-- The except clauses shared by the three converters: a raised exception is
turned into the error dictionary tagged with the file path and the converter
name, and a plain return is passed through. -/
def wrapTask (p : Path) (fname : String) (res : Option String × ConvEffects) : Option Failure × ConvEffects :=
  match res with
  | (some msg, eff) => (some ⟨p, msg, fname⟩, eff)
  | (none, eff) => (none, eff)

/-- convert_loctable_to_strings (src/py.py lines 57-103). -/
def convert_loctable_to_strings (cfg : Config) (env : Env) (loctable_file : Path) : Option Failure × ConvEffects :=
  wrapTask loctable_file "convert_loctable_to_strings" (loctableAttempt cfg env loctable_file)

/-- Body of the try block of add_image_file_to_repo (src/py.py lines 106-117). -/
def imageAttempt (cfg : Config) (env : Env) (file_path : Path) : Option String × ConvEffects :=
  let rel := relPathInDMG cfg.parsedFolderPath file_path
  let root_folder_name := basename cfg.parsedFolderPath
  let outputPath := joinPath [finalBaseRepoImagesPath cfg, root_folder_name, dirname rel]
  match env.cpImage with
  | some msg => (some msg, ⟨[outputPath], []⟩)
  | none => (none, ⟨[outputPath], [(joinOne outputPath (basename file_path), FileContent.copyOf file_path)]⟩)

/-- add_image_file_to_repo (src/py.py lines 105-123). -/
def add_image_file_to_repo (cfg : Config) (env : Env) (file_path : Path) : Option Failure × ConvEffects :=
  wrapTask file_path "add_image_file_to_repo" (imageAttempt cfg env file_path)

/-- Body of the try block of add_plist_file_to_repo (src/py.py lines 131-160):
the two path-based exclusions, then makedirs, then the plutil xml1 conversion
into the temp file, then the cp of the temp file into the destination
directory, where it lands under the temp file's basename. -/
def plistAttempt (cfg : Config) (env : Env) (file_path : Path) : Option String × ConvEffects :=
  let rel := relPathInDMG cfg.parsedFolderPath file_path
  if occursIn ".lproj".data rel = true ∧ occursIn "en.lproj".data rel = false then (none, emptyEffects)
  else if occursIn ".xml.plist".data file_path = true then (none, emptyEffects)
  else
    let outputPath := joinOne cfg.finalBaseRepoPath (dirname rel)
    match env.plutilXml with
    | some msg => (some msg, ⟨[outputPath], []⟩)
    | none =>
      match env.cpPlist with
      | some msg => (some msg, ⟨[outputPath], []⟩)
      | none => (none, ⟨[outputPath], [(joinOne outputPath (basename env.tempName), FileContent.xmlOf file_path)]⟩)

/-- add_plist_file_to_repo (src/py.py lines 126-166). -/
def add_plist_file_to_repo (cfg : Config) (env : Env) (file_path : Path) : Option Failure × ConvEffects :=
  wrapTask file_path "add_plist_file_to_repo" (plistAttempt cfg env file_path)

/-- The image suffix tuple of src/py.py line 180. -/
def imageExtensions : List String := [".png", ".jpg", ".heif", ".ico"]

/-- process_file_by_extension (src/py.py lines 170-184). -/
def process_file_by_extension (cfg : Config) (env : Env) (file_path : Path) : Option Failure × ConvEffects :=
  if cfg.skipInfoPlist = true ∧ basename file_path = "Info.plist".data then (none, emptyEffects)
  else if ".loctable".data.isSuffixOf file_path then convert_loctable_to_strings cfg env file_path
  else if imageExtensions.any (fun ext => ext.data.isSuffixOf file_path) then add_image_file_to_repo cfg env file_path
  else if ".plist".data.isSuffixOf file_path then add_plist_file_to_repo cfg env file_path
  else (none, emptyEffects)

/-- Which converter name a task would report if its try body raised. -/
def raisedName (res : Option String × ConvEffects) (fname : String) : Option String :=
  if res.1.isSome then some fname else none

/-- taskRaises cfg env p is some converter name exactly when the converter
dispatched for p runs and its try body raises an exception under env. -/
def taskRaises (cfg : Config) (env : Env) (file_path : Path) : Option String :=
  if cfg.skipInfoPlist = true ∧ basename file_path = "Info.plist".data then none
  else if ".loctable".data.isSuffixOf file_path then raisedName (loctableAttempt cfg env file_path) "convert_loctable_to_strings"
  else if imageExtensions.any (fun ext => ext.data.isSuffixOf file_path) then raisedName (imageAttempt cfg env file_path) "add_image_file_to_repo"
  else if ".plist".data.isSuffixOf file_path then raisedName (plistAttempt cfg env file_path) "add_plist_file_to_repo"
  else none

/-- One file seen by os.walk: its directory, its name, and whether
os.path.exists resolves true for it (false for a dangling symlink). -/
structure Entry where
  dir : Path
  filename : Path
  pathExists : Bool
deriving DecidableEq

/-- The full path os.path.join(dirpath, filename) of src/py.py line 201. -/
def entryPath (e : Entry) : Path := joinOne e.dir e.filename

/-- The extensions tuple of src/py.py line 227. -/
def extensions : List String := [".loctable", ".png", ".jpg", ".heif", ".ico", ".plist"]

/-- The discovery filter of src/py.py line 200. -/
def matchesExtensions (filename : Path) : Bool :=
  extensions.any (fun ext => ext.data.isSuffixOf filename)

/-- discover_files_fast (src/py.py lines 187-212): one walk keeping the files
whose name matches the extensions tuple. -/
def discover_files_fast (entries : List Entry) : List Entry :=
  entries.filter (fun e => matchesExtensions e.filename)

/-- The valid_files list of src/py.py lines 248-257: the discovered files
whose path still exists. -/
def validFiles (entries : List Entry) : List Entry :=
  (discover_files_fast entries).filter (fun e => e.pathExists)

/-- The per-task outcomes collected from the pool, one per valid file. -/
def pipelineResults (cfg : Config) (envOf : Path → Env) (entries : List Entry) : List (Option Failure × ConvEffects) :=
  (validFiles entries).map (fun e => process_file_by_extension cfg (envOf (entryPath e)) (entryPath e))

/-- The validation-time error dictionary of src/py.py lines 251-255. -/
def brokenFailure (p : Path) : Failure :=
  ⟨p, "Broken symlink or file not found", "find_and_process_files_streaming (validation)"⟩

/-- The counters of the stats dictionary (timings omitted). -/
structure Stats where
  files_found : Nat
  valid_files_processed : Nat
  error_count : Nat
deriving DecidableEq

/-- The observable result of one run: the stats counters, the final
errorArrayWithFilepaths, and the merged destination effects. -/
structure RunResult where
  stats : Stats
  errors : List Failure
  effects : ConvEffects
deriving DecidableEq

/-- find_and_process_files_streaming (src/py.py lines 215-306): discovery,
the early return on an empty find, existence validation, dispatch of every
valid file, and aggregation of the returned error dictionaries. -/
def find_and_process_files_streaming (cfg : Config) (envOf : Path → Env) (entries : List Entry) : RunResult :=
  let target_files := discover_files_fast entries
  if target_files.isEmpty then ⟨⟨0, 0, 0⟩, [], emptyEffects⟩
  else
    let validationErrors := (target_files.filter (fun e => !e.pathExists)).map (fun e => brokenFailure (entryPath e))
    let results := pipelineResults cfg envOf entries
    let errors := validationErrors ++ results.filterMap Prod.fst
    ⟨⟨target_files.length, (validFiles entries).length, errors.length⟩, errors, mergeEffects (results.map Prod.snd)⟩

/-- Modelled from the spec's words, for comparison with relPathInDMG: strip
the source-root prefix once, then one leading separator. -/
def prefixStripped (root p : Path) : Path := stripLeadingSlash (p.drop root.length)

/-- Fixture configuration: source root /src, destination root /dst. -/
def cfgW : Config := ⟨"/src".data, "/dst".data, false⟩

/-- Fixture oracle: every external step succeeds, one en key. -/
def envOk : Env := ⟨Except.ok [("en", [("greeting", "Hello")])], WriteResult.allOk, none, none, "/tmp/tmpq1w2.xml.plist".data, none⟩

/-- Fixture oracle: every external step succeeds, two en keys. -/
def envTwoKeys : Env := ⟨Except.ok [("en", [("k1", "v1"), ("k2", "v2")])], WriteResult.allOk, none, none, "/tmp/tmpq1w2.xml.plist".data, none⟩

/-- Fixture oracle: the decoded table has no en locale. -/
def envNoEn : Env := ⟨Except.ok [("fr", [("a", "b")])], WriteResult.allOk, none, none, "/tmp/tmpq1w2.xml.plist".data, none⟩

/-- Fixture oracle: the decoded table maps en to an empty mapping. -/
def envEmptyEn : Env := ⟨Except.ok [("en", [])], WriteResult.allOk, none, none, "/tmp/tmpq1w2.xml.plist".data, none⟩

/-- Fixture oracle: the plutil json decode raises. -/
def envDecodeErr : Env := ⟨Except.error "boom", WriteResult.allOk, none, none, "/tmp/tmpq1w2.xml.plist".data, none⟩

/-- Fixture oracle: the decode succeeds with two en keys and the output write
raises after the first line. -/
def envWriteErr : Env := ⟨Except.ok [("en", [("a", "1"), ("b", "2")])], WriteResult.errAt 1 "No space left on device", none, none, "/tmp/tmpq1w2.xml.plist".data, none⟩

/-- Fixture entry: an existing loctable file. -/
def entryW1 : Entry := ⟨"/src/a".data, "x.loctable".data, true⟩

/-- Fixture entry list with one existing loctable file. -/
def entriesW1 : List Entry := [entryW1]

/-- Fixture oracle map: every file decodes with an error. -/
def envOfW : Path → Env := fun _ => envDecodeErr

/-- Fixture entry: a dangling symlink to a plist. -/
def entryGhost : Entry := ⟨"/src/c".data, "ghost.plist".data, false⟩

end Ipsw

namespace Ipsw

theorem isPrefixOf_append_self (l r : List Char) : l.isPrefixOf (l ++ r) = true := by
  induction l with
  | nil => simp
  | cons c cs ih => simp [List.isPrefixOf_cons₂, ih]

theorem replaceGo_of_not_occurs (p : Char) (ps repl : List Char) :
    ∀ (s : List Char) (fuel : Nat), s.length < fuel → occursIn (p :: ps) s = false →
      replaceGo (p :: ps) repl fuel s = s := by
  intro s
  induction s with
  | nil =>
    intro fuel hf _
    obtain ⟨f, rfl⟩ : ∃ f, fuel = f + 1 := ⟨fuel - 1, by omega⟩
    simp [replaceGo]
  | cons c cs ih =>
    intro fuel hf hocc
    obtain ⟨f, rfl⟩ : ∃ f, fuel = f + 1 := ⟨fuel - 1, by omega⟩
    simp only [occursIn, Bool.or_eq_false_iff] at hocc
    obtain ⟨h1, h2⟩ := hocc
    have hlt : cs.length < f := by
      simp only [List.length_cons] at hf
      omega
    simp [replaceGo, h1]
    exact ih f hlt h2

theorem replaceGo_append_head (p : Char) (ps repl rest : List Char) (fuel : Nat) :
    replaceGo (p :: ps) repl (fuel + 1) ((p :: ps) ++ rest) = repl ++ replaceGo (p :: ps) repl fuel rest := by
  have hpre : (p :: ps).isPrefixOf ((p :: ps) ++ rest) = true := isPrefixOf_append_self _ _
  simp only [List.cons_append] at hpre ⊢
  simp [replaceGo, hpre, List.drop_left]

theorem relPath_prefix_exact (root q : Path) (hr : root ≠ []) (hq : occursIn root q = false) :
    relPathInDMG root (root ++ q) = stripLeadingSlash q := by
  match root, hr with
  | r :: rs, _ =>
    unfold relPathInDMG replaceAll
    have hlen : ((r :: rs) ++ q).length + 1 = (rs.length + q.length + 1) + 1 := by
      simp [List.length_append]
    rw [hlen, replaceGo_append_head]
    rw [replaceGo_of_not_occurs r rs [] q (rs.length + q.length + 1) (by omega) hq]
    rfl

theorem relPath_eq_prefixStripped (root q : Path) (hr : root ≠ []) (hq : occursIn root q = false) :
    relPathInDMG root (root ++ q) = prefixStripped root (root ++ q) := by
  rw [relPath_prefix_exact root q hr hq]
  unfold prefixStripped
  rw [List.drop_left]

theorem loctable_no_output (cfg : Config) (env : Env) (p : Path)
    (data : List (String × List (String × String)))
    (hd : env.decodeLoctable = Except.ok data)
    (hempty : ((data.lookup "en").getD []).isEmpty = true) :
    convert_loctable_to_strings cfg env p = (none, emptyEffects) := by
  simp [convert_loctable_to_strings, loctableAttempt, hd, hempty, wrapTask]

theorem plist_skip (cfg : Config) (env : Env) (p : Path)
    (h : (occursIn ".lproj".data (relPathInDMG cfg.parsedFolderPath p) = true ∧
          occursIn "en.lproj".data (relPathInDMG cfg.parsedFolderPath p) = false) ∨
         occursIn ".xml.plist".data p = true) :
    add_plist_file_to_repo cfg env p = (none, emptyEffects) := by
  simp only [add_plist_file_to_repo, plistAttempt]
  rcases h with h1 | h3
  · rw [if_pos h1]
    rfl
  · by_cases h1 : occursIn ".lproj".data (relPathInDMG cfg.parsedFolderPath p) = true ∧
        occursIn "en.lproj".data (relPathInDMG cfg.parsedFolderPath p) = false
    · rw [if_pos h1]
      rfl
    · rw [if_neg h1, if_pos h3]
      rfl

theorem plist_not_skip_ne (cfg : Config) (env : Env) (p : Path)
    (h1 : ¬(occursIn ".lproj".data (relPathInDMG cfg.parsedFolderPath p) = true ∧
            occursIn "en.lproj".data (relPathInDMG cfg.parsedFolderPath p) = false))
    (h3 : occursIn ".xml.plist".data p = false) :
    add_plist_file_to_repo cfg env p ≠ (none, emptyEffects) := by
  simp only [add_plist_file_to_repo, plistAttempt]
  rw [if_neg h1, if_neg (by simp [h3])]
  cases env.plutilXml <;> cases env.cpPlist <;> simp [wrapTask, emptyEffects]

theorem raisedName_spec (res : Option String × ConvEffects) (fname nm : String)
    (h : raisedName res fname = some nm) :
    nm = fname ∧ ∃ msg, res.1 = some msg := by
  unfold raisedName at h
  cases hr : res.1 with
  | none => rw [hr] at h; simp at h
  | some msg =>
    rw [hr] at h
    simp at h
    exact ⟨h.symm, msg, rfl⟩

theorem wrapTask_of_some (p : Path) (fname : String) (res : Option String × ConvEffects)
    (msg : String) (h : res.1 = some msg) :
    wrapTask p fname res = (some ⟨p, msg, fname⟩, res.2) := by
  obtain ⟨a, b⟩ := res
  cases a <;> simp_all [wrapTask]

theorem dispatch_raises (cfg : Config) (env : Env) (p : Path) (nm : String)
    (hc : taskRaises cfg env p = some nm) :
    ∃ msg eff, process_file_by_extension cfg env p = (some ⟨p, msg, nm⟩, eff) := by
  unfold taskRaises at hc
  unfold process_file_by_extension
  by_cases hA : cfg.skipInfoPlist = true ∧ basename p = "Info.plist".data
  · rw [if_pos hA] at hc
    exact absurd hc (by simp)
  rw [if_neg hA] at hc ⊢
  by_cases hB : ".loctable".data.isSuffixOf p = true
  · rw [if_pos hB] at hc ⊢
    obtain ⟨rfl, msg, hm⟩ := raisedName_spec _ _ _ hc
    refine ⟨msg, (loctableAttempt cfg env p).2, ?_⟩
    unfold convert_loctable_to_strings
    rw [wrapTask_of_some p "convert_loctable_to_strings" _ msg hm]
  rw [if_neg hB] at hc ⊢
  by_cases hC : imageExtensions.any (fun ext => ext.data.isSuffixOf p) = true
  · rw [if_pos hC] at hc ⊢
    obtain ⟨rfl, msg, hm⟩ := raisedName_spec _ _ _ hc
    refine ⟨msg, (imageAttempt cfg env p).2, ?_⟩
    unfold add_image_file_to_repo
    rw [wrapTask_of_some p "add_image_file_to_repo" _ msg hm]
  rw [if_neg hC] at hc ⊢
  by_cases hD : ".plist".data.isSuffixOf p = true
  · rw [if_pos hD] at hc ⊢
    obtain ⟨rfl, msg, hm⟩ := raisedName_spec _ _ _ hc
    refine ⟨msg, (plistAttempt cfg env p).2, ?_⟩
    unfold add_plist_file_to_repo
    rw [wrapTask_of_some p "add_plist_file_to_repo" _ msg hm]
  rw [if_neg hD] at hc
  exact absurd hc (by simp)

theorem discover_ne_empty_of_mem (entries : List Entry) (e : Entry)
    (he : e ∈ discover_files_fast entries) :
    (discover_files_fast entries).isEmpty = false := by
  cases hd : discover_files_fast entries with
  | nil => rw [hd] at he; exact absurd he (List.not_mem_nil e)
  | cons a l => rfl

theorem processed_failure_mem (cfg : Config) (envOf : Path → Env) (entries : List Entry)
    (e : Entry) (fl : Failure) (eff : ConvEffects)
    (he : e ∈ validFiles entries)
    (hp : process_file_by_extension cfg (envOf (entryPath e)) (entryPath e) = (some fl, eff)) :
    fl ∈ (find_and_process_files_streaming cfg envOf entries).errors := by
  have hmem : e ∈ discover_files_fast entries := (List.mem_filter.mp he).1
  have hne := discover_ne_empty_of_mem entries e hmem
  have hres : (some fl, eff) ∈ pipelineResults cfg envOf entries := by
    unfold pipelineResults
    have hmm := List.mem_map_of_mem
      (fun x => process_file_by_extension cfg (envOf (entryPath x)) (entryPath x)) he
    have hmm2 : process_file_by_extension cfg (envOf (entryPath e)) (entryPath e)
        ∈ List.map (fun x => process_file_by_extension cfg (envOf (entryPath x)) (entryPath x))
          (validFiles entries) := hmm
    rw [hp] at hmm2
    exact hmm2
  simp only [find_and_process_files_streaming, hne, Bool.false_eq_true, if_false]
  exact List.mem_append_right _ (List.mem_filterMap.mpr ⟨(some fl, eff), hres, rfl⟩)

theorem discover_filter (entries : List Entry) :
    discover_files_fast (entries.filter (fun e => matchesExtensions e.filename))
      = discover_files_fast entries := by
  unfold discover_files_fast
  rw [List.filter_filter]
  simp

/-- C1: a task whose conversion logic raises an exception does not abort the
run: every valid file still gets its own outcome computed independently, the
processed count stays the full valid-file count, and the crash is converted
into a Failure tagged with the originating file path and the responsible
converter's name that is a member of the final report's error list. -/
theorem C1_crash_isolated (cfg : Config) (envOf : Path → Env) (entries : List Entry)
    (e : Entry) (nm : String)
    (he : e ∈ validFiles entries)
    (hc : taskRaises cfg (envOf (entryPath e)) (entryPath e) = some nm) :
    (∃ fl ∈ (find_and_process_files_streaming cfg envOf entries).errors,
        fl.filepath = entryPath e ∧ fl.function = nm) ∧
    (find_and_process_files_streaming cfg envOf entries).stats.valid_files_processed
      = (validFiles entries).length ∧
    pipelineResults cfg envOf entries
      = (validFiles entries).map
          (fun x => process_file_by_extension cfg (envOf (entryPath x)) (entryPath x)) := by
  obtain ⟨msg, eff, hp⟩ := dispatch_raises cfg (envOf (entryPath e)) (entryPath e) nm hc
  refine ⟨⟨⟨entryPath e, msg, nm⟩, processed_failure_mem cfg envOf entries e _ eff he hp, rfl, rfl⟩, ?_, rfl⟩
  have hne := discover_ne_empty_of_mem entries e (List.mem_filter.mp he).1
  simp [find_and_process_files_streaming, hne]

/-- C1 witness: with the plutil decode of /src/a/x.loctable raising, the
failure tagged convert_loctable_to_strings reaches the error list. -/
theorem C1_crash_isolated_witness :
    (∃ fl ∈ (find_and_process_files_streaming cfgW envOfW entriesW1).errors,
        fl.filepath = entryPath entryW1 ∧ fl.function = "convert_loctable_to_strings") ∧
    (find_and_process_files_streaming cfgW envOfW entriesW1).stats.valid_files_processed
      = (validFiles entriesW1).length ∧
    pipelineResults cfgW envOfW entriesW1
      = (validFiles entriesW1).map
          (fun x => process_file_by_extension cfgW (envOfW (entryPath x)) (entryPath x)) :=
  C1_crash_isolated cfgW envOfW entriesW1 entryW1 "convert_loctable_to_strings" (by decide) (by decide)

/-- C2 counterexample: the dangling symlink /src/c/ghost.plist is reported,
but its Failure carries the message "Broken symlink or file not found" and
the function tag "find_and_process_files_streaming (validation)"; no emitted
Failure carries the claimed tag "discover" or the claimed lowercase
message. -/
theorem C2_claim_counterexample :
    (find_and_process_files_streaming cfgW envOfW [entryGhost]).errors
      = [⟨"/src/c/ghost.plist".data, "Broken symlink or file not found",
          "find_and_process_files_streaming (validation)"⟩] ∧
    (∀ fl ∈ (find_and_process_files_streaming cfgW envOfW [entryGhost]).errors,
        fl.function ≠ "discover" ∧ fl.errorMessage ≠ "broken symlink or file not found") := by
  decide

/-- C2 amended: a discovered path that matches the extension set but fails
the existence check yields exactly one Failure, with message "Broken symlink
or file not found" and function tag
"find_and_process_files_streaming (validation)"; the path is not forwarded
to dispatch and no destination file is created for it. -/
theorem C2_broken_symlink_amended (cfg : Config) (envOf : Path → Env) (dir fname : Path)
    (hm : matchesExtensions fname = true) :
    find_and_process_files_streaming cfg envOf [⟨dir, fname, false⟩]
      = ⟨⟨1, 0, 1⟩, [brokenFailure (joinOne dir fname)], emptyEffects⟩ ∧
    (∀ (entries : List Entry) (e : Entry), e ∈ discover_files_fast entries → e.pathExists = false →
        brokenFailure (entryPath e) ∈ (find_and_process_files_streaming cfg envOf entries).errors ∧
        e ∉ validFiles entries) := by
  constructor
  · simp [find_and_process_files_streaming, discover_files_fast, validFiles, pipelineResults,
      hm, mergeEffects, emptyEffects, brokenFailure, entryPath]
  · intro entries e he hf
    have hne := discover_ne_empty_of_mem entries e he
    constructor
    · simp only [find_and_process_files_streaming, hne, Bool.false_eq_true, if_false]
      apply List.mem_append_left
      apply List.mem_map_of_mem
      rw [List.mem_filter]
      exact ⟨he, by simp [hf]⟩
    · intro hv
      have hvv := (List.mem_filter.mp hv).2
      rw [hf] at hvv
      cases hvv

/-- C2 amended witness at a concrete dangling plist symlink. -/
theorem C2_broken_symlink_amended_witness :
    find_and_process_files_streaming cfgW envOfW [⟨"/src/c".data, "ghost2.plist".data, false⟩]
      = ⟨⟨1, 0, 1⟩, [brokenFailure (joinOne "/src/c".data "ghost2.plist".data)], emptyEffects⟩ :=
  (C2_broken_symlink_amended cfgW envOfW "/src/c".data "ghost2.plist".data (by decide)).1

/-- C3 counterexample: with two en keys and the write raising after the first
line, the converter returns a Failure and yet a file is present at the final
destination path holding only the first line, which differs from the full
content. -/
theorem C3_partial_write_counterexample :
    (convert_loctable_to_strings cfgW envWriteErr "/src/a/x.loctable".data).1.isSome = true ∧
    (convert_loctable_to_strings cfgW envWriteErr "/src/a/x.loctable".data).2.filesWritten
      = [("/dst/a/en.lproj/x.strings".data, FileContent.text "\"a\" = \"1\";\n")] ∧
    FileContent.text "\"a\" = \"1\";\n" ≠ FileContent.text "\"a\" = \"1\";\n\"b\" = \"2\";\n" := by
  decide

/-- C3 amended: a decode failure leaves no destination file (the decode
precedes any output), but the strings file is opened directly at its final
destination path and written line by line, so an I/O failure during writing
leaves the lines written so far visible at the final destination path. -/
theorem C3_failure_effects_amended :
    (∀ (cfg : Config) (env : Env) (p : Path) (msg : String),
        env.decodeLoctable = Except.error msg →
        convert_loctable_to_strings cfg env p
          = (some ⟨p, msg, "convert_loctable_to_strings"⟩, emptyEffects)) ∧
    (∀ (cfg : Config) (env : Env) (p : Path) data (k : Nat) (m : String),
        env.decodeLoctable = Except.ok data →
        ((data.lookup "en").getD []).isEmpty = false →
        env.locWrite = WriteResult.errAt k m →
        convert_loctable_to_strings cfg env p
          = (some ⟨p, m, "convert_loctable_to_strings"⟩,
             ⟨[locOutputDir cfg p],
              [(locOutputFile cfg p,
                FileContent.text (String.join ((locLines ((data.lookup "en").getD [])).take k)))]⟩)) := by
  constructor
  · intro cfg env p msg hd
    simp [convert_loctable_to_strings, loctableAttempt, hd, wrapTask]
  · intro cfg env p data k m hd hne hw
    simp [convert_loctable_to_strings, loctableAttempt, hd, hne, hw, wrapTask]

/-- C3 amended witness at a decode failure and at a write failure. -/
theorem C3_failure_effects_amended_witness :
    convert_loctable_to_strings cfgW envDecodeErr "/src/a/x.loctable".data
      = (some ⟨"/src/a/x.loctable".data, "boom", "convert_loctable_to_strings"⟩, emptyEffects) ∧
    convert_loctable_to_strings cfgW envWriteErr "/src/a/x.loctable".data
      = (some ⟨"/src/a/x.loctable".data, "No space left on device", "convert_loctable_to_strings"⟩,
         ⟨[locOutputDir cfgW "/src/a/x.loctable".data],
          [(locOutputFile cfgW "/src/a/x.loctable".data,
            FileContent.text (String.join
              ((locLines ((List.lookup "en" [("en", [("a", "1"), ("b", "2")])]).getD [])).take 1)))]⟩) :=
  ⟨C3_failure_effects_amended.1 cfgW envDecodeErr "/src/a/x.loctable".data "boom" rfl,
   C3_failure_effects_amended.2 cfgW envWriteErr "/src/a/x.loctable".data
     [("en", [("a", "1"), ("b", "2")])] 1 "No space left on device" rfl (by decide) rfl⟩

/-- C4: the scenario source tree with a/Localizable.loctable decoding to one
en key greeting maps to destination a/en.lproj/Localizable.strings whose
content is exactly one line, and a two-key table is written with its lines in
source-declared key order. -/
theorem C4_scenario_localizable :
    find_and_process_files_streaming cfgW (fun _ => envOk)
        [⟨"/src/a".data, "Localizable.loctable".data, true⟩]
      = ⟨⟨1, 1, 0⟩, [],
         ⟨["/dst/a/en.lproj".data],
          [("/dst/a/en.lproj/Localizable.strings".data,
            FileContent.text "\"greeting\" = \"Hello\";\n")]⟩⟩ ∧
    convert_loctable_to_strings cfgW envTwoKeys "/src/a/Localizable.loctable".data
      = (none, ⟨["/dst/a/en.lproj".data],
         [("/dst/a/en.lproj/Localizable.strings".data,
           FileContent.text "\"k1\" = \"v1\";\n\"k2\" = \"v2\";\n")]⟩) := by
  decide

/-- C5: a loctable whose decoded table has no en entry is a success with no
destination file written and no destination directory created. -/
theorem C5_missing_en_success (cfg : Config) (env : Env) (p : Path)
    (data : List (String × List (String × String)))
    (hd : env.decodeLoctable = Except.ok data)
    (hen : data.lookup "en" = none) :
    convert_loctable_to_strings cfg env p = (none, emptyEffects) := by
  apply loctable_no_output cfg env p data hd
  simp [hen]

/-- C5 witness at a table holding only a fr locale. -/
theorem C5_missing_en_success_witness :
    convert_loctable_to_strings cfgW envNoEn "/src/a/x.loctable".data = (none, emptyEffects) :=
  C5_missing_en_success cfgW envNoEn "/src/a/x.loctable".data [("fr", [("a", "b")])] rfl (by decide)

/-- C6: a plist whose relative path contains the lproj marker without the
English en.lproj marker, or whose path carries the double suffix of a
previously normalised intermediate, is a no-op success: no conversion is
attempted, no directory is created, no destination file is written. -/
theorem C6_plist_exclusions (cfg : Config) (env : Env) (p : Path)
    (h : (occursIn ".lproj".data (relPathInDMG cfg.parsedFolderPath p) = true ∧
          occursIn "en.lproj".data (relPathInDMG cfg.parsedFolderPath p) = false) ∨
         occursIn ".xml.plist".data p = true) :
    add_plist_file_to_repo cfg env p = (none, emptyEffects) :=
  plist_skip cfg env p h

/-- C6 witness at a French-locale plist and at a double-suffix plist. -/
theorem C6_plist_exclusions_witness :
    add_plist_file_to_repo cfgW envOk "/src/a/fr.lproj/Foo.plist".data = (none, emptyEffects) ∧
    add_plist_file_to_repo cfgW envOk "/src/a/Foo.xml.plist".data = (none, emptyEffects) :=
  ⟨C6_plist_exclusions cfgW envOk "/src/a/fr.lproj/Foo.plist".data (by decide),
   C6_plist_exclusions cfgW envOk "/src/a/Foo.xml.plist".data (by decide)⟩

/-- C7: a file whose suffix matches none of the recognised extensions changes
nothing: the whole run result is invariant under dropping all such files, and
the dispatcher maps such a path to success with no destination effect. -/
theorem C7_unrecognized_suffix_skipped (cfg : Config) (envOf : Path → Env) (entries : List Entry) :
    find_and_process_files_streaming cfg envOf (entries.filter (fun e => matchesExtensions e.filename))
      = find_and_process_files_streaming cfg envOf entries ∧
    (∀ (env : Env) (p : Path), matchesExtensions p = false →
        process_file_by_extension cfg env p = (none, emptyEffects)) := by
  constructor
  · simp only [find_and_process_files_streaming, validFiles, pipelineResults, discover_filter]
  · intro env p h
    have hs : ∀ ext ∈ extensions, ext.data.isSuffixOf p = false := by
      intro ext hext
      cases hval : ext.data.isSuffixOf p
      · rfl
      · exfalso
        have hmt : matchesExtensions p = true := by
          unfold matchesExtensions
          exact List.any_eq_true.mpr ⟨ext, hext, hval⟩
        rw [hmt] at h
        cases h
    have h1 := hs ".loctable" (by simp [extensions])
    have h2 := hs ".png" (by simp [extensions])
    have h3 := hs ".jpg" (by simp [extensions])
    have h4 := hs ".heif" (by simp [extensions])
    have h5 := hs ".ico" (by simp [extensions])
    have h6 := hs ".plist" (by simp [extensions])
    have himg : imageExtensions.any (fun ext => ext.data.isSuffixOf p) = false := by
      simp [imageExtensions, h2, h3, h4, h5]
    by_cases hskip : cfg.skipInfoPlist = true ∧ basename p = "Info.plist".data
    · simp [process_file_by_extension, hskip]
    · simp [process_file_by_extension, hskip, h1, himg, h6]

/-- C7 witness: a readme file is dispatched to a no-op. -/
theorem C7_unrecognized_suffix_skipped_witness :
    process_file_by_extension cfgW envOk "/src/readme.txt".data = (none, emptyEffects) :=
  (C7_unrecognized_suffix_skipped cfgW (fun _ => envOk) []).2 envOk "/src/readme.txt".data (by decide)

/-- C8: the relative path is computed by removing every occurrence of the
source-root string and then stripping one leading separator; it agrees with
plain prefix stripping when the root occurs only as the prefix, and a second
occurrence of the root inside the path is also deleted, moving the loctable
destination directory. -/
theorem C8_relpath_replace_all :
    (∀ root p : Path, relPathInDMG root p = stripLeadingSlash (replaceAll root [] p)) ∧
    (∀ root q : Path, root ≠ [] → occursIn root q = false →
        relPathInDMG root (root ++ q) = prefixStripped root (root ++ q)) ∧
    relPathInDMG "/src".data "/src/a/src/b.loctable".data = "a/b.loctable".data ∧
    prefixStripped "/src".data "/src/a/src/b.loctable".data = "a/src/b.loctable".data ∧
    relPathInDMG "/src".data "/src/a/src/b.loctable".data
      ≠ prefixStripped "/src".data "/src/a/src/b.loctable".data ∧
    locOutputDir cfgW "/src/a/src/b.loctable".data = "/dst/a/en.lproj".data ∧
    joinPath [cfgW.finalBaseRepoPath,
        dirname (prefixStripped cfgW.parsedFolderPath "/src/a/src/b.loctable".data), "en.lproj".data]
      = "/dst/a/src/en.lproj".data := by
  refine ⟨fun root p => rfl, relPath_eq_prefixStripped, ?_, ?_, ?_, ?_, ?_⟩ <;> decide

/-- C8 witness of the single-occurrence agreement at a concrete path. -/
theorem C8_relpath_replace_all_witness :
    relPathInDMG "/src".data ("/src".data ++ "/a/hello.loctable".data)
      = prefixStripped "/src".data ("/src".data ++ "/a/hello.loctable".data) :=
  C8_relpath_replace_all.2.1 "/src".data "/a/hello.loctable".data (by decide) (by decide)

/-- C9: for a plist path without the double-suffix marker, the converter is a
no-op success exactly when the relative path contains lproj as a substring
while not containing en.lproj as a substring; a plist under the directory
wren.lproj is therefore not skipped and is normalised into the destination
tree. -/
theorem C9_lproj_substring_semantics :
    (∀ (cfg : Config) (env : Env) (p : Path), occursIn ".xml.plist".data p = false →
        (add_plist_file_to_repo cfg env p = (none, emptyEffects) ↔
         (occursIn ".lproj".data (relPathInDMG cfg.parsedFolderPath p) = true ∧
          occursIn "en.lproj".data (relPathInDMG cfg.parsedFolderPath p) = false))) ∧
    add_plist_file_to_repo cfgW envOk "/src/a/wren.lproj/Foo.plist".data
      = (none, ⟨["/dst/a/wren.lproj".data],
                [("/dst/a/wren.lproj/tmpq1w2.xml.plist".data,
                  FileContent.xmlOf "/src/a/wren.lproj/Foo.plist".data)]⟩) := by
  constructor
  · intro cfg env p hxml
    constructor
    · intro heq
      by_cases hl : occursIn ".lproj".data (relPathInDMG cfg.parsedFolderPath p) = true ∧
          occursIn "en.lproj".data (relPathInDMG cfg.parsedFolderPath p) = false
      · exact hl
      · exact absurd heq (plist_not_skip_ne cfg env p hl hxml)
    · intro hl
      exact plist_skip cfg env p (Or.inl hl)
  · decide

/-- C9 witness of the skip characterisation at a French-locale plist. -/
theorem C9_lproj_substring_semantics_witness :
    add_plist_file_to_repo cfgW envOk "/src/b/fr.lproj/Bar.plist".data = (none, emptyEffects) ↔
    (occursIn ".lproj".data (relPathInDMG cfgW.parsedFolderPath "/src/b/fr.lproj/Bar.plist".data) = true ∧
     occursIn "en.lproj".data (relPathInDMG cfgW.parsedFolderPath "/src/b/fr.lproj/Bar.plist".data) = false) :=
  C9_lproj_substring_semantics.1 cfgW envOk "/src/b/fr.lproj/Bar.plist".data (by decide)

/-- C10: a loctable whose decoded table maps en to an empty mapping is
treated exactly like one lacking the en entry: success, no directory
created, no file written, and the converter result coincides with that of
any table lacking en. -/
theorem C10_empty_en_like_missing :
    (∀ (cfg : Config) (env : Env) (p : Path) data,
        env.decodeLoctable = Except.ok data → data.lookup "en" = some [] →
        convert_loctable_to_strings cfg env p = (none, emptyEffects)) ∧
    (∀ (cfg : Config) (env env2 : Env) (p : Path) data data2,
        env.decodeLoctable = Except.ok data → data.lookup "en" = some [] →
        env2.decodeLoctable = Except.ok data2 → data2.lookup "en" = none →
        convert_loctable_to_strings cfg env p = convert_loctable_to_strings cfg env2 p) := by
  constructor
  · intro cfg env p data hd hen
    apply loctable_no_output cfg env p data hd
    simp [hen]
  · intro cfg env env2 p data data2 hd hen hd2 hen2
    rw [loctable_no_output cfg env p data hd (by simp [hen]),
        loctable_no_output cfg env2 p data2 hd2 (by simp [hen2])]

/-- C10 witness: an empty en table and a fr-only table give the same no-op
success. -/
theorem C10_empty_en_like_missing_witness :
    convert_loctable_to_strings cfgW envEmptyEn "/src/a/x.loctable".data
      = convert_loctable_to_strings cfgW envNoEn "/src/a/x.loctable".data :=
  C10_empty_en_like_missing.2 cfgW envEmptyEn envNoEn "/src/a/x.loctable".data
    [("en", [])] [("fr", [("a", "b")])] rfl (by decide) rfl (by decide)

end Ipsw
